import Mathlib

/-!
Shallow embedding of `src/InciReport.py` (incident-report dashboard).

The core of the program is a data-normalization pipeline:
  * `standardize_time` : free-form time string → `"HH:MM:SS"` or `"Unknown"`,
    built on pandas `to_datetime` with explicit formats `%I:%M%p` and `%H:%M`
    (strptime semantics: per-directive regexes tried in order with
    backtracking, then an exact-match check that no unconverted data remains);
  * the `Incident Hour` derivation (`%H:%M:%S` parse, `-1` sentinel);
  * `time_range` bucketing;
  * column-name cleaning and the `rename_mapping` table;
  * the incident-type filter and the grouping aggregations behind the charts.

Machine-level remarks on the embedding:
  * Python `str.strip()` is modelled over the whitespace characters that occur
    in this pipeline's data (ASCII whitespace, NEL and NBSP); `str.lower()` is
    modelled by ASCII lowercasing (`Char.toLower`).
  * strptime directives are modelled by their regexes from the parser tables:
    `%H` = `2[0-3]|[0-1]\d|\d`, `%I` = `1[0-2]|0[1-9]|[1-9]`,
    `%M` = `[0-5]\d|\d`, `%S` = `6[0-1]|[0-5]\d|\d`, `%p` = `am|pm`
    case-insensitively, with alternatives tried in order and the first full
    pattern match kept; the format engine then rejects the parse when the
    match does not consume the whole string (`unconverted data remains`).
-/

/-- Whitespace characters stripped by Python `str.strip()` (the subset
relevant to this pipeline: ASCII whitespace, NEL, NBSP). -/
def pyIsSpace (c : Char) : Bool :=
  c = ' ' || c = '\t' || c = '\n' || c = '\x0d' || c = '\x0b' ||
  c = '\x0c' || c = '\x85' || c = '\xa0'

/-- Python `str.strip()`: drop leading and trailing whitespace. -/
def pyStrip (l : List Char) : List Char :=
  ((l.dropWhile pyIsSpace).reverse.dropWhile pyIsSpace).reverse

/-- Python `sub in s` substring test. -/
def hasSub (pat : List Char) : List Char → Bool
  | [] => pat.isPrefixOf []
  | c :: rest => pat.isPrefixOf (c :: rest) || hasSub pat rest

/-- `time_str.strip().lower()` of `standardize_time`, on character lists. -/
def cleanTime (s : String) : List Char :=
  (pyStrip s.data).map Char.toLower

/-- A single digit character consumed by a strptime directive. -/
def digit? (c : Char) : Option Nat :=
  if c.isDigit then some (c.toNat - 48) else none

/-- One regex alternative `[lo-hi]`: a digit in the given range. -/
def matchDigitRange (lo hi : Nat) : List Char → Option (Nat × List Char)
  | [] => none
  | c :: rest =>
    match digit? c with
    | some d => if lo ≤ d ∧ d ≤ hi then some (d, rest) else none
    | none => none

/-- Two consecutive digit alternatives forming a two-digit value. -/
def m2 (p q : List Char → Option (Nat × List Char)) (cs : List Char) :
    Option (Nat × List Char) :=
  match p cs with
  | some (a, cs1) =>
    match q cs1 with
    | some (b, cs2) => some (10 * a + b, cs2)
    | none => none
  | none => none

/-- `%H` directive, regex `2[0-3]|[0-1]\d|\d`: alternatives in priority
order (each entry is one regex alternative that matched a prefix). -/
def altH (cs : List Char) : List (Nat × List Char) :=
  [m2 (matchDigitRange 2 2) (matchDigitRange 0 3) cs,
   m2 (matchDigitRange 0 1) (matchDigitRange 0 9) cs,
   matchDigitRange 0 9 cs].filterMap id

/-- `%I` directive, regex `1[0-2]|0[1-9]|[1-9]`. -/
def altI (cs : List Char) : List (Nat × List Char) :=
  [m2 (matchDigitRange 1 1) (matchDigitRange 0 2) cs,
   m2 (matchDigitRange 0 0) (matchDigitRange 1 9) cs,
   matchDigitRange 1 9 cs].filterMap id

/-- `%M` directive, regex `[0-5]\d|\d`. -/
def altM (cs : List Char) : List (Nat × List Char) :=
  [m2 (matchDigitRange 0 5) (matchDigitRange 0 9) cs,
   matchDigitRange 0 9 cs].filterMap id

/-- `%S` directive, regex `6[0-1]|[0-5]\d|\d`. -/
def altS (cs : List Char) : List (Nat × List Char) :=
  [m2 (matchDigitRange 6 6) (matchDigitRange 0 1) cs,
   m2 (matchDigitRange 0 5) (matchDigitRange 0 9) cs,
   matchDigitRange 0 9 cs].filterMap id

/-- `%p` directive: `AM|PM` matched case-insensitively;
`true` means PM. -/
def altP (cs : List Char) : Option (Bool × List Char) :=
  match cs with
  | c1 :: c2 :: rest =>
    if c1.toLower = 'a' ∧ c2.toLower = 'm' then some (false, rest)
    else if c1.toLower = 'p' ∧ c2.toLower = 'm' then some (true, rest)
    else none
  | _ => none

/-- Regex match of format `%H:%M` against a prefix of the input, with
backtracking over the alternatives; returns hour, minute, and the
unconsumed remainder of the first full pattern match. -/
def parseHM (cs : List Char) : Option (Nat × Nat × List Char) :=
  (altH cs).findSome? fun hc =>
    match hc.2 with
    | ':' :: cs2 =>
      (altM cs2).findSome? fun mc => some (hc.1, mc.1, mc.2)
    | _ => none

/-- Regex match of format `%I:%M%p` against a prefix of the input. -/
def parseIMp (cs : List Char) : Option (Nat × Nat × Bool × List Char) :=
  (altI cs).findSome? fun ic =>
    match ic.2 with
    | ':' :: cs2 =>
      (altM cs2).findSome? fun mc =>
        match altP mc.2 with
        | some (pm, rest) => some (ic.1, mc.1, pm, rest)
        | none => none
    | _ => none

/-- Regex match of format `%H:%M:%S` against a prefix of the input. -/
def parseHMS (cs : List Char) : Option (Nat × Nat × Nat × List Char) :=
  (altH cs).findSome? fun hc =>
    match hc.2 with
    | ':' :: cs2 =>
      (altM cs2).findSome? fun mc =>
        match mc.2 with
        | ':' :: cs3 =>
          (altS cs3).findSome? fun sc => some (hc.1, mc.1, sc.1, sc.2)
        | _ => none
    | _ => none

/-- `pd.to_datetime(s, format="%H:%M")`: the match must consume the whole
string, otherwise "unconverted data remains" is raised (modelled as `none`). -/
def to_datetime_HM (cs : List Char) : Option (Nat × Nat) :=
  match parseHM cs with
  | some (h, m, []) => some (h, m)
  | _ => none

/-- `pd.to_datetime(s, format="%I:%M%p")` with the exact-match check. -/
def to_datetime_IMp (cs : List Char) : Option (Nat × Nat × Bool) :=
  match parseIMp cs with
  | some (h, m, pm, []) => some (h, m, pm)
  | _ => none

/-- `pd.to_datetime(s, format="%H:%M:%S")` with the exact-match check. -/
def to_datetime_HMS (cs : List Char) : Option (Nat × Nat × Nat) :=
  match parseHMS cs with
  | some (h, m, s, []) => some (h, m, s)
  | _ => none

/-- strptime's 12-hour → 24-hour conversion for `%I` with `%p`. -/
def convert12 (h : Nat) (pm : Bool) : Nat :=
  if pm then (if h = 12 then 12 else h + 12)
  else (if h = 12 then 0 else h)

/-- A digit character. -/
def dchar (n : Nat) : Char := Char.ofNat (48 + n)

/-- Zero-padded two-digit field of `strftime` (values here are `< 100`). -/
def pad2c (n : Nat) : List Char := [dchar (n / 10), dchar (n % 10)]

/-- `strftime("%H:%M:%S")`. -/
def fmtHMS (h m s : Nat) : String :=
  String.mk (pad2c h ++ ':' :: (pad2c m ++ ':' :: pad2c s))

/-- `standardize_time` of `InciReport.py` (lines 33–45): `None`/missing →
`"Unknown"`; strip + lowercase; if the string contains `am` or `pm`, parse as
`%I:%M%p`; else if it contains `-`, `"Unknown"`; else parse as `%H:%M`;
any parse failure is caught and yields `"Unknown"`. -/
def standardize_time (t : Option String) : String :=
  match t with
  | none => "Unknown"
  | some s =>
    let cs := cleanTime s
    if hasSub ['a', 'm'] cs || hasSub ['p', 'm'] cs then
      match to_datetime_IMp cs with
      | some (h, m, pm) => fmtHMS (convert12 h pm) m 0
      | none => "Unknown"
    else if hasSub ['-'] cs then "Unknown"
    else
      match to_datetime_HM cs with
      | some (h, m) => fmtHMS h m 0
      | none => "Unknown"

/-- The `Incident Hour` derivation (lines 48–49):
`pd.to_datetime(col, format="%H:%M:%S", errors="coerce").dt.hour` with
`fillna(-1)`: the hour component on a successful parse, else the
sentinel `-1`. -/
def incident_hour (st : String) : Int :=
  match to_datetime_HMS st.data with
  | some (h, _, _) => (h : Int)
  | none => -1

/-- `time_range` of `InciReport.py` (lines 56–72). -/
def time_range (hour : Int) : String :=
  if hour < 0 then "Unknown"
  else if 0 ≤ hour ∧ hour < 6 then "12am-6am"
  else if 6 ≤ hour ∧ hour < 9 then "6am-9am"
  else if 9 ≤ hour ∧ hour < 12 then "9am-12pm"
  else if 12 ≤ hour ∧ hour < 15 then "12pm-3pm"
  else if 15 ≤ hour ∧ hour < 18 then "3pm-6pm"
  else if 18 ≤ hour ∧ hour < 21 then "6pm-9pm"
  else "9pm-12am"

/-- The eight labels `time_range` can produce. -/
def time_range_labels : List String :=
  ["Unknown", "12am-6am", "6am-9am", "9am-12pm", "12pm-3pm",
   "3pm-6pm", "6pm-9pm", "9pm-12am"]

/-- `df['Day of Week'] = df['Date'].dt.day_name()`: dates are represented by
their parse result — `none` when `pd.to_datetime(..., errors="coerce")`
coerced the cell to `NaT`, otherwise the day count from the epoch
(1970-01-01 was a Thursday). -/
def day_name (d : Nat) : String :=
  ["Thursday", "Friday", "Saturday", "Sunday", "Monday", "Tuesday",
   "Wednesday"].getD (d % 7) "Thursday"

/-- One dataframe row, with the fields the charts consume.  `incidentTime`
and `incidentType` are `none` when the cell is null (`NaN`); `date` is the
parsed `Date` cell (see `day_name`). -/
structure Record where
  incidentTime : Option String
  date : Option Nat
  incidentType : Option String
deriving DecidableEq, Repr

/-- Derived column `Standardized Incident Time`. -/
def recordStdTime (r : Record) : String := standardize_time r.incidentTime

/-- Derived column `Incident Hour`. -/
def recordHour (r : Record) : Int := incident_hour (recordStdTime r)

/-- Derived column `Time Range`. -/
def recordRange (r : Record) : String := time_range (recordHour r)

/-- Derived column `Day of Week` (`NaN` when the date did not parse). -/
def recordDay (r : Record) : Option String := r.date.map day_name

/-- The filter of `update_graphs` (line 111):
`df[df['Incident Type'] == selected_type] if selected_type != 'All' else df`.
Pandas `==` against a scalar is exact string equality and is `False` on
`NaN` cells. -/
def filter_records (rs : List Record) (selected : String) : List Record :=
  if selected = "All" then rs
  else rs.filter fun r => r.incidentType == some selected

/-- `groupby(col).size()`: one `(key, count)` entry per distinct key. -/
def group_sizes {α : Type} [DecidableEq α] (keys : List α) : List (α × Nat) :=
  keys.dedup.map fun k => (k, keys.count k)

/-- Total-incidents figure of `update_graphs` (line 114): `len(filtered_df)`. -/
def total_incidents (rs : List Record) (selected : String) : Nat :=
  (filter_records rs selected).length

/-- Hour grouping of `update_graphs` (line 128):
`filtered_df.groupby('Incident Hour').size()` (the column is `-1`-filled,
so no key is dropped). -/
def hour_counts (rs : List Record) (selected : String) : List (Int × Nat) :=
  group_sizes ((filter_records rs selected).map recordHour)

/-- Time-range histogram data of `update_graphs` (line 133): counts of the
`Time Range` column (total, `time_range` assigns every row a label). -/
def range_counts (rs : List Record) (selected : String) : List (String × Nat) :=
  group_sizes ((filter_records rs selected).map recordRange)

/-- Day-of-week histogram data of `update_graphs` (line 143): `NaN` days
(unparsed dates) are dropped from the histogram. -/
def day_counts (rs : List Record) (selected : String) : List (String × Nat) :=
  group_sizes ((filter_records rs selected).filterMap recordDay)

/-- `update_pie_chart` (lines 159–166): the pie is computed from the full
dataframe `df`, the dropdown value is ignored (`def update_pie_chart(_)`);
`px.pie(df, names=...)` drops null names. -/
def update_pie_chart (rs : List Record) (_selected : String) :
    List (String × Nat) :=
  group_sizes (rs.filterMap fun r => r.incidentType)

/-- Column cleaning (line 15):
`df.columns.str.strip().str.replace('\n', ' ').str.replace('\xa0', ' ')` —
strip, then each remaining newline or NBSP becomes one ordinary space. -/
def clean_column (s : String) : String :=
  String.mk ((pyStrip s.data).map fun c =>
    if c = '\n' ∨ c = '\xa0' then ' ' else c)

/-- `rename_mapping` of `InciReport.py` (lines 18–29). -/
def rename_mapping : List (String × String) :=
  [("Time (AM or PM)", "Incident Time"),
   ("Type of incident  *Must Call Police for asterisked/bold violations",
    "Incident Type"),
   ("Legal Name of Patron (1) involved (put \"Unknown\" if unable to identify)",
    "Patron 1 Name"),
   ("Patron (1) Email Address", "Patron 1 Email"),
   ("Legal Name of Patron (2) involved (put \"Unknown\" if unable to identify)",
    "Patron 2 Name"),
   ("Patron (2) Email Address ", "Patron 2 Email"),
   ("Additional patron(s) and/or witnesses and contact information",
    "Additional Contacts"),
   ("Detailed description of incident (including activity at time of incident). Please give as much information as possible. Example: If a silver MacBook Pro was reported stolen, please describe the it...",
    "Description"),
   ("Action Taken", "Action Taken"),
   ("Employee completing this form", "Form Employee")]

/-- The column-normalization pass: clean the header, then
`df.rename(columns=rename_mapping)` — headers found in the table are
replaced by their canonical name, all others are kept as cleaned. -/
def normalize_header (s : String) : String :=
  match rename_mapping.find? (fun p => p.1 == clean_column s) with
  | some p => p.2
  | none => clean_column s

/-- A raw spreadsheet cell as `standardize_time` receives it through
`df['Incident Time'].apply`: null (`NaN`/`None`), a string, a number, or a
time-typed value produced by the spreadsheet loader. -/
inductive Cell where
  | null : Cell
  | str : String → Cell
  | num : Int → Cell
  | time : Nat → Nat → Nat → Cell
deriving DecidableEq, Repr

/-- `standardize_time` on a raw cell: `pd.isnull` catches null; on any
non-string value `time_str.strip()` raises `AttributeError`, which the bare
`except` swallows, returning `"Unknown"`. -/
def standardize_cell : Cell → String
  | Cell.null => "Unknown"
  | Cell.str s => standardize_time (some s)
  | Cell.num _ => "Unknown"
  | Cell.time _ _ _ => "Unknown"

/-- A sample dataset (the three-row scenario of the spec, §8). -/
def sampleRecords : List Record :=
  [⟨some "2:15pm", some 0, some "Theft"⟩,
   ⟨some "08:30", none, some "Theft (minor)"⟩,
   ⟨some "lunch-break", some 3, some "Vandalism"⟩]

/-- A well-formed 12-hour input `"H:MMam"` / `"H:MMpm"` (hour written
without a leading zero, two-digit minutes). -/
def input12 (h m : Nat) (pm : Bool) : String :=
  String.mk ((if h < 10 then [dchar h] else [dchar (h / 10), dchar (h % 10)]) ++
    ':' :: pad2c m ++ (if pm then ['p', 'm'] else ['a', 'm']))

/-! ### Helper lemmas -/

theorem matchDigitRange_inv {lo hi d : Nat} {cs rest : List Char}
    (h : matchDigitRange lo hi cs = some (d, rest)) : lo ≤ d ∧ d ≤ hi := by
  cases cs with
  | nil => simp [matchDigitRange] at h
  | cons c t =>
    unfold matchDigitRange at h
    cases hdg : digit? c with
    | none => simp [hdg] at h
    | some k =>
      simp only [hdg] at h
      split at h
      · next hin => cases h; exact hin
      · simp at h

theorem m2_inv {p q : List Char → Option (Nat × List Char)} {cs : List Char}
    {v : Nat} {rest : List Char} (h : m2 p q cs = some (v, rest)) :
    ∃ a b cs1, p cs = some (a, cs1) ∧ q cs1 = some (b, rest) ∧
      v = 10 * a + b := by
  unfold m2 at h
  cases hp : p cs with
  | none => rw [hp] at h; simp at h
  | some ac =>
    obtain ⟨a, cs1⟩ := ac
    rw [hp] at h
    cases hq : q cs1 with
    | none => simp [hq] at h
    | some bc =>
      obtain ⟨b, cs2⟩ := bc
      simp only [hq] at h
      cases h
      exact ⟨a, b, cs1, rfl, hq, rfl⟩

theorem altH_bound {cs : List Char} {v : Nat} {r : List Char}
    (hx : (v, r) ∈ altH cs) : v ≤ 23 := by
  unfold altH at hx
  rw [List.mem_filterMap] at hx
  obtain ⟨o, ho, hid⟩ := hx
  simp only [id_eq] at hid
  subst hid
  simp only [List.mem_cons, List.not_mem_nil, or_false] at ho
  rcases ho with h1 | h2 | h3
  · obtain ⟨a, b, cs1, hp, hq, hv⟩ := m2_inv h1.symm
    have ha := matchDigitRange_inv hp
    have hb := matchDigitRange_inv hq
    omega
  · obtain ⟨a, b, cs1, hp, hq, hv⟩ := m2_inv h2.symm
    have ha := matchDigitRange_inv hp
    have hb := matchDigitRange_inv hq
    omega
  · have := matchDigitRange_inv h3.symm
    omega

theorem altI_bound {cs : List Char} {v : Nat} {r : List Char}
    (hx : (v, r) ∈ altI cs) : 1 ≤ v ∧ v ≤ 12 := by
  unfold altI at hx
  rw [List.mem_filterMap] at hx
  obtain ⟨o, ho, hid⟩ := hx
  simp only [id_eq] at hid
  subst hid
  simp only [List.mem_cons, List.not_mem_nil, or_false] at ho
  rcases ho with h1 | h2 | h3
  · obtain ⟨a, b, cs1, hp, hq, hv⟩ := m2_inv h1.symm
    have ha := matchDigitRange_inv hp
    have hb := matchDigitRange_inv hq
    omega
  · obtain ⟨a, b, cs1, hp, hq, hv⟩ := m2_inv h2.symm
    have ha := matchDigitRange_inv hp
    have hb := matchDigitRange_inv hq
    omega
  · have := matchDigitRange_inv h3.symm
    omega

theorem altM_bound {cs : List Char} {v : Nat} {r : List Char}
    (hx : (v, r) ∈ altM cs) : v ≤ 59 := by
  unfold altM at hx
  rw [List.mem_filterMap] at hx
  obtain ⟨o, ho, hid⟩ := hx
  simp only [id_eq] at hid
  subst hid
  simp only [List.mem_cons, List.not_mem_nil, or_false] at ho
  rcases ho with h1 | h2
  · obtain ⟨a, b, cs1, hp, hq, hv⟩ := m2_inv h1.symm
    have ha := matchDigitRange_inv hp
    have hb := matchDigitRange_inv hq
    omega
  · have := matchDigitRange_inv h2.symm
    omega

theorem parseHM_bound {cs : List Char} {h m : Nat} {rest : List Char}
    (hp : parseHM cs = some (h, m, rest)) : h ≤ 23 ∧ m ≤ 59 := by
  unfold parseHM at hp
  obtain ⟨hc, hic, hfc⟩ := List.exists_of_findSome?_eq_some hp
  obtain ⟨hv, hr⟩ := hc
  dsimp only at hfc
  split at hfc
  · next cs2 heq =>
    obtain ⟨mc, hmc, hfc2⟩ := List.exists_of_findSome?_eq_some hfc
    obtain ⟨mv, mr⟩ := mc
    cases hfc2
    exact ⟨altH_bound hic, altM_bound hmc⟩
  · simp at hfc

theorem parseIMp_bound {cs : List Char} {h m : Nat} {pm : Bool}
    {rest : List Char} (hp : parseIMp cs = some (h, m, pm, rest)) :
    1 ≤ h ∧ h ≤ 12 ∧ m ≤ 59 := by
  unfold parseIMp at hp
  obtain ⟨ic, hic, hfc⟩ := List.exists_of_findSome?_eq_some hp
  obtain ⟨iv, ir⟩ := ic
  dsimp only at hfc
  split at hfc
  · next cs2 heq =>
    obtain ⟨mc, hmc, hfc2⟩ := List.exists_of_findSome?_eq_some hfc
    obtain ⟨mv, mr⟩ := mc
    dsimp only at hfc2
    split at hfc2
    · next pm' rest' heq2 =>
      cases hfc2
      have hI := altI_bound hic
      have hM := altM_bound hmc
      exact ⟨hI.1, hI.2, hM⟩
    · simp at hfc2
  · simp at hfc

theorem parseHMS_bound {cs : List Char} {h m s : Nat} {rest : List Char}
    (hp : parseHMS cs = some (h, m, s, rest)) : h ≤ 23 ∧ m ≤ 59 := by
  unfold parseHMS at hp
  obtain ⟨hc, hic, hfc⟩ := List.exists_of_findSome?_eq_some hp
  obtain ⟨hv, hr⟩ := hc
  dsimp only at hfc
  split at hfc
  · next cs2 heq =>
    obtain ⟨mc, hmc, hfc2⟩ := List.exists_of_findSome?_eq_some hfc
    obtain ⟨mv, mr⟩ := mc
    dsimp only at hfc2
    split at hfc2
    · next cs3 heq2 =>
      obtain ⟨sc, hsc, hfc3⟩ := List.exists_of_findSome?_eq_some hfc2
      cases hfc3
      exact ⟨altH_bound hic, altM_bound hmc⟩
    · simp at hfc2
  · simp at hfc

theorem to_datetime_HM_inv {cs : List Char} {h m : Nat}
    (hd : to_datetime_HM cs = some (h, m)) : parseHM cs = some (h, m, []) := by
  unfold to_datetime_HM at hd
  split at hd
  · next heq => cases hd; exact heq
  · simp at hd

theorem to_datetime_IMp_inv {cs : List Char} {h m : Nat} {pm : Bool}
    (hd : to_datetime_IMp cs = some (h, m, pm)) :
    parseIMp cs = some (h, m, pm, []) := by
  unfold to_datetime_IMp at hd
  split at hd
  · next heq => cases hd; exact heq
  · simp at hd

theorem to_datetime_HMS_inv {cs : List Char} {h m s : Nat}
    (hd : to_datetime_HMS cs = some (h, m, s)) :
    parseHMS cs = some (h, m, s, []) := by
  unfold to_datetime_HMS at hd
  split at hd
  · next heq => cases hd; exact heq
  · simp at hd

theorem convert12_lt {h : Nat} (pm : Bool) (h1 : 1 ≤ h) (h2 : h ≤ 12) :
    convert12 h pm < 24 := by
  unfold convert12
  split_ifs <;> omega

theorem sum_group_sizes {α : Type} [DecidableEq α] (l : List α) :
    ((group_sizes l).map Prod.snd).sum = l.length := by
  unfold group_sizes
  rw [List.map_map]
  exact List.sum_map_count_dedup_eq_length l

theorem mem_dropWhile_of_mem {α : Type} {p : α → Bool} {x : α} :
    ∀ {l : List α}, x ∈ l → p x = false → x ∈ l.dropWhile p := by
  intro l
  induction l with
  | nil => simp
  | cons a t ih =>
    intro h hx
    rw [List.dropWhile_cons]
    by_cases hpa : p a = true
    · simp only [hpa, if_true]
      rcases List.mem_cons.mp h with he | ht
      · subst he; rw [hpa] at hx; exact absurd hx (by simp)
      · exact ih ht hx
    · simp only [hpa, if_false]
      exact h

theorem mem_pyStrip {x : Char} {l : List Char} (h : x ∈ l)
    (hx : pyIsSpace x = false) : x ∈ pyStrip l := by
  unfold pyStrip
  rw [List.mem_reverse]
  exact mem_dropWhile_of_mem (List.mem_reverse.mpr (mem_dropWhile_of_mem h hx)) hx

theorem mem_cleanTime {s : String} (h : '-' ∈ s.data) :
    '-' ∈ cleanTime s := by
  unfold cleanTime
  exact List.mem_map.mpr ⟨'-', mem_pyStrip h (by decide), by decide⟩

theorem hasSub_singleton {c : Char} :
    ∀ {l : List Char}, c ∈ l → hasSub [c] l = true := by
  intro l
  induction l with
  | nil => simp
  | cons a t ih =>
    intro h
    show ([c].isPrefixOf (a :: t) || hasSub [c] t) = true
    rcases List.mem_cons.mp h with he | ht
    · subst he
      simp [List.isPrefixOf]
    · rw [ih ht, Bool.or_true]

/-! ### Claims -/

/-- **C1.** `standardize_time` maps null/missing input and `""` to
`"Unknown"`, `"2:30pm"` to `"14:30:00"`, `"14:05"` to `"14:05:00"`,
`"9-10"` and `"25:99"` to `"Unknown"`; every input string containing a
hyphen whose trimmed, lower-cased form contains neither `am` nor `pm`
yields `"Unknown"`; and the meridiem marker is matched case-insensitively
(`"2:30PM"`, `"2:30Pm"` behave like `"2:30pm"`). -/
theorem standardize_time_spec :
    (∀ s : String, '-' ∈ s.data →
      hasSub ['a', 'm'] (cleanTime s) = false →
      hasSub ['p', 'm'] (cleanTime s) = false →
      standardize_time (some s) = "Unknown") ∧
    standardize_time none = "Unknown" ∧
    standardize_time (some "") = "Unknown" ∧
    standardize_time (some "2:30pm") = "14:30:00" ∧
    standardize_time (some "14:05") = "14:05:00" ∧
    standardize_time (some "9-10") = "Unknown" ∧
    standardize_time (some "25:99") = "Unknown" ∧
    standardize_time (some "2:30PM") = "14:30:00" ∧
    standardize_time (some "2:30Pm") = "14:30:00" := by
  refine ⟨?_, by decide, by decide, by decide, by decide, by decide,
    by decide, by decide, by decide⟩
  intro s hdash ham hpm
  have hd : hasSub ['-'] (cleanTime s) = true :=
    hasSub_singleton (mem_cleanTime hdash)
  simp [standardize_time, ham, hpm, hd]

/-- Witness for **C1**: the hyphen rule applied to the concrete
input `"x-y"`. -/
theorem standardize_time_spec_witness :
    standardize_time (some "x-y") = "Unknown" :=
  standardize_time_spec.1 "x-y" (by decide) (by decide) (by decide)

/-- **C2.** On every integer hour in `[-1, 23]`, `time_range` returns one of
the 8 labels, following the fixed partition of the claim. -/
theorem time_range_partition :
    ∀ h : Int, -1 ≤ h → h ≤ 23 →
      time_range h ∈ time_range_labels ∧
      (h < 0 → time_range h = "Unknown") ∧
      (0 ≤ h → h < 6 → time_range h = "12am-6am") ∧
      (6 ≤ h → h < 9 → time_range h = "6am-9am") ∧
      (9 ≤ h → h < 12 → time_range h = "9am-12pm") ∧
      (12 ≤ h → h < 15 → time_range h = "12pm-3pm") ∧
      (15 ≤ h → h < 18 → time_range h = "3pm-6pm") ∧
      (18 ≤ h → h < 21 → time_range h = "6pm-9pm") ∧
      (21 ≤ h → h < 24 → time_range h = "9pm-12am") := by
  intro h h1 h2
  interval_cases h <;> decide

/-- Witness for **C2**: the partition at hour `5`. -/
theorem time_range_partition_witness :
    time_range 5 ∈ time_range_labels ∧ time_range 5 = "12am-6am" := by
  have h := time_range_partition 5 (by decide) (by decide)
  exact ⟨h.1, h.2.2.1 (by decide) (by decide)⟩

/-- **C3.** `filter_records records "All"` is the identity, and for any other
selection the result holds exactly the records whose `incidentType` equals
the selection, by exact case-sensitive string comparison. -/
theorem filter_records_spec :
    ∀ (rs : List Record) (t : String) (r : Record),
      filter_records rs "All" = rs ∧
      (t ≠ "All" →
        (r ∈ filter_records rs t ↔ r ∈ rs ∧ r.incidentType = some t)) := by
  intro rs t r
  refine ⟨by simp [filter_records], fun ht => ?_⟩
  simp [filter_records, ht, List.mem_filter]

/-- Witness for **C3**: the filter on the three-row sample dataset with the
selection `"Theft"`. -/
theorem filter_records_spec_witness :
    filter_records sampleRecords "All" = sampleRecords ∧
    (Record.mk (some "2:15pm") (some 0) (some "Theft") ∈
        filter_records sampleRecords "Theft" ↔
      Record.mk (some "2:15pm") (some 0) (some "Theft") ∈ sampleRecords ∧
      (Record.mk (some "2:15pm") (some 0) (some "Theft")).incidentType =
        some "Theft") := by
  have h := filter_records_spec sampleRecords "Theft"
    (Record.mk (some "2:15pm") (some 0) (some "Theft"))
  exact ⟨h.1, h.2 (by decide)⟩

/-- **C5.** The pie-chart aggregation is computed over the whole dataset: it
is identical for every two dropdown selections, while the other aggregations
honor the filter (on the sample dataset, the total-incidents count differs
between the selections `"Theft"` and `"All"`). -/
theorem pie_ignores_filter :
    (∀ (rs : List Record) (t1 t2 : String),
      update_pie_chart rs t1 = update_pie_chart rs t2) ∧
    total_incidents sampleRecords "Theft" ≠ total_incidents sampleRecords "All" := by
  exact ⟨fun _ _ _ => rfl, by decide⟩

/-- **C7.** The column normalizer cleans a header (strip, newlines and
non-breaking spaces to ordinary spaces), renames it when the cleaned form is
a key of `rename_mapping` (e.g. `"Time (AM or PM)"` → `"Incident Time"`),
passes every unmatched header through with only the cleanup applied, and
never drops a header. -/
theorem normalize_header_spec :
    (∀ (s : String) (p : String × String),
      rename_mapping.find? (fun q => q.1 == clean_column s) = some p →
      normalize_header s = p.2) ∧
    (∀ s : String,
      rename_mapping.find? (fun q => q.1 == clean_column s) = none →
      normalize_header s = clean_column s) ∧
    normalize_header "Time (AM or PM)" = "Incident Time" ∧
    normalize_header "  Time (AM\nor PM)\xa0 " = "Incident Time" ∧
    (∀ s : String, normalize_header s = clean_column s ∨
      ∃ p ∈ rename_mapping, normalize_header s = p.2) := by
  refine ⟨?_, ?_, by decide, by decide, ?_⟩
  · intro s p hp
    unfold normalize_header
    rw [hp]
  · intro s hp
    unfold normalize_header
    rw [hp]
  · intro s
    unfold normalize_header
    cases hfind : rename_mapping.find? (fun q => q.1 == clean_column s) with
    | none => exact Or.inl rfl
    | some p => exact Or.inr ⟨p, List.mem_of_find?_eq_some hfind, rfl⟩

/-- Witness for **C7**: the lookup-hit rule applied to the raw header
`"Time (AM or PM)"`. -/
theorem normalize_header_spec_witness :
    normalize_header "Time (AM or PM)" = "Incident Time" :=
  normalize_header_spec.1 "Time (AM or PM)"
    ("Time (AM or PM)", "Incident Time") (by decide)

/-- **C10.** On every non-null, non-string cell (numeric or time-typed), the
`AttributeError` raised by `.strip()` is swallowed by the bare `except` and
`standardize_time` returns `"Unknown"`. -/
theorem standardize_cell_nonstring :
    ∀ c : Cell, c ≠ Cell.null → (∀ s, c ≠ Cell.str s) →
      standardize_cell c = "Unknown" := by
  intro c h1 h2
  cases c with
  | null => exact absurd rfl h1
  | str s => exact absurd rfl (h2 s)
  | num n => rfl
  | time h m s => rfl

/-- Witness for **C10**: the numeric cell `5`. -/
theorem standardize_cell_nonstring_witness :
    standardize_cell (Cell.num 5) = "Unknown" :=
  standardize_cell_nonstring (Cell.num 5) (by simp) (fun s => by simp)

/-- **C8.** `standardize_time` is total and never propagates a parse
failure: on every input it returns either `"Unknown"` or a string of the
form `HH:MM:SS` with a valid hour and minute. -/
theorem standardize_time_never_fails :
    ∀ t : Option String, standardize_time t = "Unknown" ∨
      ∃ h m, h < 24 ∧ m < 60 ∧ standardize_time t = fmtHMS h m 0 := by
  intro t
  cases t with
  | none => exact Or.inl rfl
  | some s =>
    cases ha : hasSub ['a', 'm'] (cleanTime s) || hasSub ['p', 'm'] (cleanTime s) with
    | true =>
      cases hd : to_datetime_IMp (cleanTime s) with
      | none => exact Or.inl (by simp [standardize_time, ha, hd])
      | some v =>
        obtain ⟨h, m, pm⟩ := v
        have hb := parseIMp_bound (to_datetime_IMp_inv hd)
        exact Or.inr ⟨convert12 h pm, m, convert12_lt pm hb.1 hb.2.1, by omega,
          by simp [standardize_time, ha, hd]⟩
    | false =>
      cases hh : hasSub ['-'] (cleanTime s) with
      | true => exact Or.inl (by simp [standardize_time, ha, hh])
      | false =>
        cases hd : to_datetime_HM (cleanTime s) with
        | none => exact Or.inl (by simp [standardize_time, ha, hh, hd])
        | some v =>
          obtain ⟨h, m⟩ := v
          have hb := parseHM_bound (to_datetime_HM_inv hd)
          exact Or.inr ⟨h, m, by omega, by omega,
            by simp [standardize_time, ha, hh, hd]⟩

/-- **C4.** `Incident Hour` is consistent with the standardized time: when
the standardized time parses as `HH:MM:SS` the derived hour is exactly its
hour component, an integer in `[0, 23]`; otherwise (in particular on
`"Unknown"`) it is the sentinel `-1`. -/
theorem incident_hour_consistent :
    ∀ raw : Option String,
      (∀ h m s,
        to_datetime_HMS (standardize_time raw).data = some (h, m, s) →
        incident_hour (standardize_time raw) = (h : Int) ∧
          0 ≤ (h : Int) ∧ (h : Int) ≤ 23) ∧
      (to_datetime_HMS (standardize_time raw).data = none →
        incident_hour (standardize_time raw) = -1) ∧
      incident_hour "Unknown" = -1 := by
  intro raw
  refine ⟨?_, ?_, by decide⟩
  · intro h m s hp
    have hb := parseHMS_bound (to_datetime_HMS_inv hp)
    unfold incident_hour
    rw [hp]
    exact ⟨rfl, by omega, by omega⟩
  · intro hp
    unfold incident_hour
    rw [hp]

/-- Witness for **C4**: the derivation on the standardized form of
`"2:30pm"`. -/
theorem incident_hour_consistent_witness :
    incident_hour (standardize_time (some "2:30pm")) = (14 : Int) ∧
      0 ≤ (14 : Int) ∧ (14 : Int) ≤ 23 :=
  (incident_hour_consistent (some "2:30pm")).1 14 30 0 (by decide)

/-- **C9.** For every record set and selection, the hour grouping and the
time-range grouping each sum to the total record count of the (filtered)
dataset, while the day-of-week grouping, which drops unparsed dates, sums
to at most that count. -/
theorem grouped_counts_total :
    ∀ (rs : List Record) (t : String),
      ((hour_counts rs t).map Prod.snd).sum = total_incidents rs t ∧
      ((range_counts rs t).map Prod.snd).sum = total_incidents rs t ∧
      ((day_counts rs t).map Prod.snd).sum ≤ total_incidents rs t := by
  intro rs t
  refine ⟨?_, ?_, ?_⟩
  · unfold hour_counts total_incidents
    rw [sum_group_sizes, List.length_map]
  · unfold range_counts total_incidents
    rw [sum_group_sizes, List.length_map]
  · unfold day_counts total_incidents
    rw [sum_group_sizes]
    exact List.length_filterMap_le _ _

/-- **C6 counterexample.** Re-standardizing the output of a valid 12-hour
input is not the identity: `standardize_time "2:30pm" = "14:30:00"`, but
`standardize_time "14:30:00" = "Unknown"` — the 24-hour path parses with
format `%H:%M` exactly and rejects the trailing `":00"` as unconverted
data. -/
theorem standardize_roundtrip_cex :
    standardize_time (some "2:30pm") = "14:30:00" ∧
    standardize_time (some (standardize_time (some "2:30pm"))) = "Unknown" ∧
    standardize_time (some (standardize_time (some "2:30pm"))) ≠
      standardize_time (some "2:30pm") := by
  decide

set_option maxHeartbeats 2000000 in
/-- **C6 (amended).** For every valid 12-hour input `"H:MMam"` / `"H:MMpm"`
(`1 ≤ H ≤ 12`, two-digit minutes), `standardize_time` deterministically
produces the converted `HH:MM:00`; re-applying `standardize_time` to that
output takes the 24-hour path and returns `"Unknown"`, because format
`%H:%M` does not consume the seconds field. -/
theorem standardize_roundtrip_amended :
    ∀ (h : Fin 12) (m : Fin 60) (pm : Bool),
      standardize_time (some (input12 (h.val + 1) m.val pm)) =
        fmtHMS (convert12 (h.val + 1) pm) m.val 0 ∧
      standardize_time
        (some (standardize_time (some (input12 (h.val + 1) m.val pm)))) =
        "Unknown" := by
  decide
